import Mathlib

/-!
Verification of the fspubsub filesystem event store: a shallow embedding of
the store, pub and sub packages (store.go, pub/pub.go, sub/sub.go).

Modelling conventions:
* Go's reflection-based dynamic values are embedded as the inductive `GoVal`
  with type descriptors `GoTy` (`reflect.Type`); struct field lists are their
  own mutual inductives so that structural recursion and induction are direct.
* The external `encoding/json` codec is modelled at the JSON-document level:
  `marshal` produces a `Json` tree (a serialized body), `unmarshal` decodes a
  tree against a type descriptor, mirroring Go's behaviour on the shapes the
  store uses (structs of strings/ints, unmarshalable channel fields, missing
  keys filled with zero values, unknown keys ignored).
* The filesystem is a finite map from full paths to file bodies (`FStore`);
  `os.Stat`/`os.Mkdir`/write-failure/`notify.Watch` outcomes are supplied by
  oracle functions (`SysFS`, `NotifySys`).
* The subscriber's watch goroutine is run on an explicit input trace
  (notifications and the consumer's Close), with the error channel drained
  with priority as soon as it is readable: one fair schedule of the Go
  `select` loop.
-/

namespace Fsps

mutual

/-- JSON documents, the serialized form produced by the codec. -/
inductive Json where
  | jstr : String → Json
  | jnum : Int → Json
  | jobj : JFields → Json
deriving DecidableEq, Repr

inductive JFields where
  | jnil : JFields
  | jcons : String → Json → JFields → JFields
deriving DecidableEq, Repr

end

mutual

/-- Runtime Go values (the dynamic `interface\x7b\x7d` arguments), restricted to the
shapes the event store handles: strings, ints, channels (unmarshalable) and
structs. A struct value carries its type name and whether its type implements
the `IndexedEvent` interface (the `Less` capability used by sorted dumps). -/
inductive GoVal where
  | vstr : String → GoVal
  | vint : Int → GoVal
  | vchan : GoVal
  | vstruct : String → Bool → Fields → GoVal
deriving DecidableEq, Repr

inductive Fields where
  | fnil : Fields
  | fcons : String → GoVal → Fields → Fields
deriving DecidableEq, Repr

end

mutual

/-- Go type descriptors (`reflect.Type`), mirroring `GoVal`. -/
inductive GoTy where
  | tstr : GoTy
  | tint : GoTy
  | tchan : GoTy
  | tstruct : String → Bool → FieldTys → GoTy
deriving DecidableEq, Repr

inductive FieldTys where
  | tnil : FieldTys
  | tcons : String → GoTy → FieldTys → FieldTys
deriving DecidableEq, Repr

end

mutual

/-- The type of a runtime value (`reflect.TypeOf`). -/
def typeOf : GoVal → GoTy
  | .vstr _ => .tstr
  | .vint _ => .tint
  | .vchan => .tchan
  | .vstruct n idx fs => .tstruct n idx (typeOfFields fs)

def typeOfFields : Fields → FieldTys
  | .fnil => .tnil
  | .fcons k v rest => .tcons k (typeOf v) (typeOfFields rest)

end

/-- The name of a type (`reflect.Type.Name`), used as the stream directory
component. -/
def tyName : GoTy → String
  | .tstr => "string"
  | .tint => "int"
  | .tchan => "chan"
  | .tstruct n _ _ => n

/-- Whether a type implements the `IndexedEvent` interface (has a `Less`
method); the type-assertion `p[i].Data.(IndexedEvent)` of `eventSlice.Less`. -/
def hasIdx : GoTy → Bool
  | .tstruct _ idx _ => idx
  | _ => false

mutual

/-- Serialization (`json.Marshal`): channels are not marshalable, structs
marshal field by field in declaration order. -/
def marshal : GoVal → Except String Json
  | .vstr s => .ok (.jstr s)
  | .vint n => .ok (.jnum n)
  | .vchan => .error "json: unsupported type: chan"
  | .vstruct _ _ fs =>
    match marshalFields fs with
    | .ok jfs => .ok (.jobj jfs)
    | .error e => .error e

def marshalFields : Fields → Except String JFields
  | .fnil => .ok .jnil
  | .fcons k v rest =>
    match marshal v with
    | .error e => .error e
    | .ok j =>
      match marshalFields rest with
      | .error e => .error e
      | .ok jrest => .ok (.jcons k j jrest)

end

/-- Lookup of a key in a JSON object (first occurrence, as `encoding/json`
takes the first exact match). -/
def jlookup (k : String) : JFields → Option Json
  | .jnil => none
  | .jcons k' j rest => if k' = k then some j else jlookup k rest

mutual

/-- The zero value of a type, used by `json.Unmarshal` for struct fields whose
key is absent from the document. -/
def zeroVal : GoTy → GoVal
  | .tstr => .vstr ""
  | .tint => .vint 0
  | .tchan => .vchan
  | .tstruct n idx ftys => .vstruct n idx (zeroFields ftys)

def zeroFields : FieldTys → Fields
  | .tnil => .fnil
  | .tcons k ty rest => .fcons k (zeroVal ty) (zeroFields rest)

end

mutual

/-- Deserialization (`json.Unmarshal`) of a document against a type
descriptor: struct fields are looked up by name in the whole object, a missing
key leaves the zero value, a shape mismatch (or a channel-typed field given a
value) is an unmarshal error. -/
def unmarshal : Json → GoTy → Except String GoVal
  | .jstr s, .tstr => .ok (.vstr s)
  | .jnum n, .tint => .ok (.vint n)
  | .jobj jfs, .tstruct n idx ftys =>
    match unmarshalFields jfs ftys with
    | .ok fs => .ok (.vstruct n idx fs)
    | .error e => .error e
  | _, _ => .error "json: cannot unmarshal value into Go value"

def unmarshalFields (jfs : JFields) : FieldTys → Except String Fields
  | .tnil => .ok .fnil
  | .tcons k ty rest =>
    match jlookup k jfs with
    | none =>
      match unmarshalFields jfs rest with
      | .ok fs => .ok (.fcons k (zeroVal ty) fs)
      | .error e => .error e
    | some j =>
      match unmarshal j ty with
      | .error e => .error e
      | .ok v =>
        match unmarshalFields jfs rest with
        | .ok fs => .ok (.fcons k v fs)
        | .error e => .error e

end

/-- Field names of a struct value, in declaration order. -/
def fieldNames : Fields → List String
  | .fnil => []
  | .fcons k _ rest => k :: fieldNames rest

/-- Field names of a struct type, in declaration order. -/
def tyFieldNames : FieldTys → List String
  | .tnil => []
  | .tcons k _ rest => k :: tyFieldNames rest

/-- Boolean no-duplicates check on a name list. -/
def namesNodup : List String → Bool
  | [] => true
  | x :: xs => !(xs.contains x) && namesNodup xs

mutual

/-- Well-formedness of a runtime value: every struct level has pairwise
distinct field names (always true of a Go struct type). -/
def wfVal : GoVal → Bool
  | .vstr _ => true
  | .vint _ => true
  | .vchan => true
  | .vstruct _ _ fs => namesNodup (fieldNames fs) && wfFields fs

def wfFields : Fields → Bool
  | .fnil => true
  | .fcons _ v rest => wfVal v && wfFields rest

end

/-! ### Path helpers (`path/filepath`, slash separator). The character-level
work is done on `List Char` so that every function evaluates inside the
kernel. -/

/-- Split a character list at every `/` (the empty path yields one empty
element, as Go's `strings.Split`). -/
def splitSlash : List Char → List (List Char)
  | [] => [[]]
  | c :: cs =>
    if c = '/' then [] :: splitSlash cs
    else
      match splitSlash cs with
      | [] => [[c]]
      | e :: rest => (c :: e) :: rest

/-- Join path elements with `/` separators. -/
def joinSlash : List (List Char) → List Char
  | [] => []
  | [e] => e
  | e :: rest => e ++ '/' :: joinSlash rest

/-- One step of Go `path.Clean`'s element processing: push a path element onto
the output stack (head = most recent element). Empty and `.` elements are
skipped; `..` pops a poppable element, is appended when the path is not
rooted, and is dropped at the root. -/
def cleanPush (rooted : Bool) (stk : List (List Char)) (e : List Char) :
    List (List Char) :=
  if e = [] ∨ e = ['.'] then stk
  else if e = ['.', '.'] then
    match stk with
    | top :: rest =>
      if top = ['.', '.'] then (if rooted then stk else ['.', '.'] :: stk)
      else rest
    | [] => if rooted then [] else [['.', '.']]
  else e :: stk

/-- Whether a path is rooted (begins with `/`). -/
def isRooted : List Char → Bool
  | '/' :: _ => true
  | _ => false

/-- Go `filepath.Clean` (slash-separated form): shortest lexical equivalent of
the path. -/
def filepathClean (p : String) : String :=
  if p.data = [] then "."
  else
    let rooted := isRooted p.data
    let stk := (splitSlash p.data).foldl (cleanPush rooted) []
    let body := joinSlash stk.reverse
    if rooted then String.mk ('/' :: body)
    else if body = [] then "." else String.mk body

/-- Core of Go `filepath.Base` on a character list: drop trailing slashes,
then keep everything after the last remaining slash. -/
def baseList (cs : List Char) : List Char :=
  ((cs.reverse.dropWhile (· = '/')).takeWhile (· ≠ '/')).reverse

/-- Go `filepath.Base`: the last element of the path. -/
def filepathBase (p : String) : String :=
  if p.toList = [] then "."
  else
    let b := baseList p.toList
    if b = [] then "/" else String.mk b

/-! ### The store package: Stream, WriteEvent, DecodeEvent, Dump, Fetch -/

/-- Errors of the store and pub packages, one constructor per `fmt.Errorf` or
error value in the source; `idCollision` is the distinguished retryable
`IDCollisionError`. -/
inductive StoreErr where
  | nilEvent
  | notDir (path : String)
  | mkdirFail (path : String) (msg : String)
  | statFail (path : String) (msg : String)
  | typeMismatch (evTy streamTy : GoTy)
  | marshalErr (msg : String)
  | idCollision (id : String)
  | writeFail (path : String) (msg : String)
  | readFail (path : String)
  | unmarshalErr (path : String) (msg : String)
  | idGenFail (msg : String)
deriving DecidableEq, Repr

/-- The message carried by each error, mirroring the format strings of the
source (`errors.New` / `fmt.Errorf` / `IDCollisionError.Error`). -/
def errMsg : StoreErr → String
  | .nilEvent => "event cannot be nil"
  | .notDir p => p ++ " exists and is not a directory"
  | .mkdirFail p m => "cannot create directory " ++ p ++ ": " ++ m
  | .statFail p m => "could not stat dir " ++ p ++ ": " ++ m
  | .typeMismatch a b =>
    "event of type " ++ tyName a ++ " does not match stream type " ++ tyName b
  | .marshalErr m => "could not marshal event data: " ++ m
  | .idCollision id => "id collision: " ++ id
  | .writeFail p m => "error writing event to file " ++ p ++ ": " ++ m
  | .readFail p => "error reading event data at " ++ p
  | .unmarshalErr p m => "error unmarshaling event data from " ++ p ++ ": " ++ m
  | .idGenFail m => "could not generate ID: " ++ m

/-- Result of `os.Stat` on a path: an existing directory, an existing
non-directory, `IsNotExist`, or any other stat failure. -/
inductive StatR where
  | statDir
  | statFile
  | statNoEnt
  | statErr (msg : String)
deriving DecidableEq, Repr

/-- Oracle for the OS calls whose outcome is environment-determined:
`os.Stat` on a directory path, `os.Mkdir` failure, and `ioutil.WriteFile`
failure (`none` = success). -/
structure SysFS where
  stat : String → StatR
  mkdirErr : String → Option String
  writeErr : String → Option String

/-- The store of event files: full path to serialized body. Writes cons to
the front; `ioutil.ReadFile` is lookup of the first binding. -/
def FStore := List (String × Json)

/-- A directory-based event stream (`store.Stream`): resolved directory and
the event type it is locked to. -/
structure Stream where
  dir : String
  eventType : GoTy
deriving DecidableEq, Repr

/-- A delivered or stored message (`store.Event` / `sub.Event`). -/
structure Event where
  ID : String
  Data : GoVal
deriving DecidableEq, Repr

/-- `store.NewStream`: reject a nil event, resolve the directory as
`filepath.Clean(dir) + "/" + typeName`, then stat it: an existing directory is
accepted, an existing non-directory rejected, a missing one created (the
returned Bool records whether `os.Mkdir` ran), and any other stat failure is
an error. -/
def NewStream (dir : String) (event : Option GoVal) (sys : SysFS) :
    Except StoreErr (Stream × Bool) :=
  match event with
  | none => .error .nilEvent
  | some ev =>
    let d := filepathClean dir ++ "/" ++ tyName (typeOf ev)
    match sys.stat d with
    | .statDir => .ok (⟨d, typeOf ev⟩, false)
    | .statFile => .error (.notDir d)
    | .statNoEnt =>
      match sys.mkdirErr d with
      | some m => .error (.mkdirFail d m)
      | none => .ok (⟨d, typeOf ev⟩, true)
    | .statErr m => .error (.statFail d m)

/-- `store.Stream.WriteEvent`: reject a type mismatch, marshal the event,
fail with `IDCollisionError` when a file named `id` already responds to stat,
otherwise write the body to `dir + "/" + id`. The returned `FStore` is the
store after the call (unchanged on every error path). -/
def WriteEvent (s : Stream) (sys : SysFS) (fstore : FStore) (id : String)
    (event : GoVal) : Except StoreErr Unit × FStore :=
  if typeOf event ≠ s.eventType then
    (.error (.typeMismatch (typeOf event) s.eventType), fstore)
  else
    match marshal event with
    | .error m => (.error (.marshalErr m), fstore)
    | .ok data =>
      let path := s.dir ++ "/" ++ id
      if (List.lookup path fstore).isSome then (.error (.idCollision id), fstore)
      else
        match sys.writeErr path with
        | some m => (.error (.writeFail path m), fstore)
        | none => (.ok (), (path, data) :: fstore)

/-- `store.DecodeEvent`: read the file at `path`, unmarshal it against the
event type, and key the resulting Event by the file's base name. -/
def DecodeEvent (fstore : FStore) (path : String) (eventType : GoTy) :
    Except StoreErr Event :=
  match List.lookup path fstore with
  | none => .error (.readFail path)
  | some b =>
    match unmarshal b eventType with
    | .error m => .error (.unmarshalErr path m)
    | .ok v => .ok ⟨filepathBase path, v⟩

/-- `pub.Publisher.Publish`: draw the next identity from the generator
(`uuid.NewRandom`, modelled as a supply of identity strings consumed from the
front), then `WriteEvent` it; the identity is drawn before any check runs. -/
def Publish (s : Stream) (sys : SysFS) (fstore : FStore) (event : GoVal)
    (idGen : List String) : Except StoreErr String × FStore × List String :=
  match idGen with
  | [] => (.error (.idGenFail "random source exhausted"), fstore, [])
  | id :: rest =>
    match WriteEvent s sys fstore id event with
    | (.error e, f') => (.error e, f', rest)
    | (.ok _, f') => (.ok id, f', rest)

/-- `store.Fetch` after stream resolution: decode the single file
`stream.Dir() + "/" + id`. -/
def FetchS (s : Stream) (fstore : FStore) (id : String) : Except StoreErr Event :=
  DecodeEvent fstore (s.dir ++ "/" ++ id) s.eventType

/-- Whether the second character list starts with the first. -/
def hasPre : List Char → List Char → Bool
  | [], _ => true
  | _ :: _, [] => false
  | a :: as, b :: bs => if a = b then hasPre as bs else false

/-- The name a path contributes to a directory listing of `dir`: the remainder
after `dir + "/"` when the path lies directly in `dir` (no deeper slash),
otherwise nothing. -/
def entryName (dir p : String) : Option String :=
  let pre := (dir ++ "/").data
  if hasPre pre p.data then
    let rest := p.data.drop pre.length
    if rest.isEmpty || rest.contains '/' then none else some (String.mk rest)
  else none

/-- `ioutil.ReadDir` over the store: the names of the regular files lying
directly in `dir`, deduplicated (the store is keyed by path). -/
def dirEntries (fstore : FStore) (dir : String) : List String :=
  ((fstore.map Prod.fst).filterMap (entryName dir)).dedup

/-- The decode loop of `store.dump`: decode every listed file, aborting the
whole call on the first failure. -/
def decodeAll (fstore : FStore) (dir : String) (ty : GoTy) :
    List String → Except StoreErr (List Event)
  | [] => .ok []
  | id :: rest =>
    match DecodeEvent fstore (dir ++ "/" ++ id) ty with
    | .error e => .error e
    | .ok ev =>
      match decodeAll fstore dir ty rest with
      | .error e => .error e
      | .ok es => .ok (ev :: es)

/-- `store.dump` on a resolved stream: list the directory and decode every
regular file. -/
def dumpS (fstore : FStore) (s : Stream) : Except StoreErr (List Event) :=
  decodeAll fstore s.dir s.eventType (dirEntries fstore s.dir)

/-- `store.Dump`: resolve the stream, then dump its directory. -/
def Dump (sys : SysFS) (fstore : FStore) (dir : String) (event : Option GoVal) :
    Except StoreErr (List Event) :=
  match NewStream dir event sys with
  | .error e => .error e
  | .ok (s, _) => dumpS fstore s

/-- `eventSlice.Less` as used by `sort.Sort`: assert that the left event's
data implements `IndexedEvent` (panicking — an `error` here — when it does
not, carrying the offending type) and then consult the user `Less` method,
supplied as the method-table oracle `lessImpl`. -/
def eventLess (lessImpl : GoVal → GoVal → Bool) (a b : Event) :
    Except GoTy Bool :=
  if hasIdx (typeOf a.Data) then .ok (lessImpl a.Data b.Data)
  else .error (typeOf a.Data)

/-- `sort.Reverse` of `eventSlice.Less`: the arguments swapped, so the
capability assertion lands on the second event's data. -/
def eventLessRev (lessImpl : GoVal → GoVal → Bool) (a b : Event) :
    Except GoTy Bool :=
  eventLess lessImpl b a

/-- Insertion into a sorted list under a comparison that can panic. -/
def insertE (le : Event → Event → Except GoTy Bool) (x : Event) :
    List Event → Except GoTy (List Event)
  | [] => .ok [x]
  | y :: ys =>
    match le x y with
    | .error e => .error e
    | .ok true => .ok (x :: y :: ys)
    | .ok false =>
      match insertE le x ys with
      | .error e => .error e
      | .ok r => .ok (y :: r)

/-- `sort.Sort` modelled as insertion sort under a panicking comparison; like
any comparison sort it performs a comparison exactly when the slice has at
least two elements, which is the only property the claims rely on. -/
def sortE (le : Event → Event → Except GoTy Bool) :
    List Event → Except GoTy (List Event)
  | [] => .ok []
  | x :: xs =>
    match sortE le xs with
    | .error e => .error e
    | .ok r => insertE le x r

/-- Result of a bulk sorted read: events, a returned error, or a panic (the
offending non-`IndexedEvent` type) raised inside `sort.Sort`. -/
inductive DumpRes where
  | ok (es : List Event)
  | err (e : StoreErr)
  | panicked (ty : GoTy)
deriving DecidableEq, Repr

/-- `store.DumpSorted`: dump, then sort with `eventSlice.Less`. -/
def DumpSorted (sys : SysFS) (fstore : FStore) (dir : String)
    (event : Option GoVal) (lessImpl : GoVal → GoVal → Bool) : DumpRes :=
  match Dump sys fstore dir event with
  | .error e => .err e
  | .ok es =>
    match sortE (eventLess lessImpl) es with
    | .error ty => .panicked ty
    | .ok r => .ok r

/-- `store.DumpSortedReverse`: dump, then sort with the reversed order. -/
def DumpSortedReverse (sys : SysFS) (fstore : FStore) (dir : String)
    (event : Option GoVal) (lessImpl : GoVal → GoVal → Bool) : DumpRes :=
  match Dump sys fstore dir event with
  | .error e => .err e
  | .ok es =>
    match sortE (eventLessRev lessImpl) es with
    | .error ty => .panicked ty
    | .ok r => .ok r

/-! ### The sub package: Subscriber lifecycle and the watch goroutine -/

/-- The subscriber's buffered error channel `errch` (capacity one): an
optional buffered error and a closed flag. -/
structure ErrCh where
  buf : Option StoreErr
  closed : Bool
deriving DecidableEq, Repr

/-- A fresh `errch`, as allocated by `NewSubscriber`. -/
def initErrCh : ErrCh := ⟨none, false⟩

/-- Go's `close` on the error channel, the whole body of `Subscriber.Close`:
closing an already-closed channel panics. -/
def closeChan (c : ErrCh) : Except String ErrCh :=
  if c.closed then .error "panic: close of closed channel"
  else .ok { c with closed := true }

/-- Whether a receive on `errch` would complete without blocking: a buffered
value is pending or the channel is closed. -/
def chanReadable (c : ErrCh) : Bool := c.buf.isSome || c.closed

/-- Receive from `errch`: a buffered value if any, otherwise (closed channel)
the zero value `nil`. -/
def chanRecv (c : ErrCh) : Option StoreErr × ErrCh :=
  match c.buf with
  | some e => (some e, { c with buf := none })
  | none => (none, c)

/-- `sub.Subscriber` as seen by the construction/Subscribe API: resolved
directory, locked event type, and the `opened` flag. -/
structure Subscriber where
  dir : String
  eventType : GoTy
  opened : Bool
deriving DecidableEq, Repr

/-- `sub.NewSubscriber`: the same nil check and directory resolution switch as
`store.NewStream` (the logic is duplicated in the source); it allocates the
channels and performs no watch registration. The Bool records whether
`os.Mkdir` ran. -/
def NewSubscriber (dir : String) (event : Option GoVal) (sys : SysFS) :
    Except StoreErr (Subscriber × Bool) :=
  match event with
  | none => .error .nilEvent
  | some ev =>
    let d := filepathClean dir ++ "/" ++ tyName (typeOf ev)
    match sys.stat d with
    | .statDir => .ok (⟨d, typeOf ev, false⟩, false)
    | .statFile => .error (.notDir d)
    | .statNoEnt =>
      match sys.mkdirErr d with
      | some m => .error (.mkdirFail d m)
      | none => .ok (⟨d, typeOf ev, false⟩, true)
    | .statErr m => .error (.statFail d m)

/-- Oracle for `notify.Watch`: the registration failure, if any, for a watched
directory. -/
structure NotifySys where
  watchErr : String → Option String

/-- Outcome of `Subscriber.Subscribe`: a panic (already opened), a returned
registration error (subscriber unchanged), or a started watch (subscriber now
opened). -/
inductive SubRes where
  | panicked (msg : String)
  | failed (msg : String) (s : Subscriber)
  | started (s : Subscriber)
deriving DecidableEq, Repr

/-- `sub.Subscriber.Subscribe`: panic when already opened; register the watch,
returning its failure as an error with `opened` untouched; on success mark the
subscriber opened and start the watch goroutine. -/
def Subscribe (nsys : NotifySys) (s : Subscriber) : SubRes :=
  if s.opened then .panicked "calling subscribe on an already opened subscriber"
  else
    match nsys.watchErr s.dir with
    | some m => .failed ("error watching directory " ++ s.dir ++ ": " ++ m) s
    | none => .started { s with opened := true }

/-- State of the watch goroutine plus the channels it shares with the
consumer: the delivered event queue, `errch`, the terminal `err` field, the
`done` flag and a count of how many times `close(done)` ran. -/
structure WatchSt where
  queue : List Event
  errch : ErrCh
  err : Option StoreErr
  done : Bool
  doneCount : Nat
deriving DecidableEq, Repr

/-- The watch state right after `Subscribe` starts the goroutine. -/
def initWatch : WatchSt := ⟨[], initErrCh, none, false, 0⟩

/-- One external input consumed by the watch goroutine: a file notification
from the Change Source, or the consumer's `Close` (closing `errch`). -/
inductive WatchInput where
  | notif (path : String)
  | closeSub
deriving DecidableEq, Repr

/-- The notification arm of the `select` in `Subscriber.watch`: read the file
at the notified path and unmarshal it; a failure is sent into `errch` (the
`break` leaves the `select`, not the loop), a success is delivered on the
queue keyed by the path's base name. -/
def handleNotif (fstore : FStore) (ty : GoTy) (s : WatchSt) (path : String) :
    WatchSt :=
  match List.lookup path fstore with
  | none => { s with errch := { s.errch with buf := some (.readFail path) } }
  | some b =>
    match unmarshal b ty with
    | .error m =>
      { s with errch := { s.errch with buf := some (.unmarshalErr path m) } }
    | .ok v => { s with queue := s.queue ++ [⟨filepathBase path, v⟩] }

/-- The `select` loop of `Subscriber.watch`, run over an explicit input trace.
Whenever `errch` is readable it is drained first (one fair schedule of the Go
`select`): the received value becomes the terminal `err`, `done` is closed and
the goroutine returns, ignoring the rest of the trace. Otherwise the next
input is consumed: a `Close` closes `errch`, a notification is handled. An
exhausted trace leaves the goroutine blocked (still running). -/
def watchRun (fstore : FStore) (ty : GoTy) (s : WatchSt)
    (inputs : List WatchInput) : WatchSt :=
  if chanReadable s.errch then
    { s with
        err := (chanRecv s.errch).1
        errch := (chanRecv s.errch).2
        done := true
        doneCount := s.doneCount + 1 }
  else
    match inputs with
    | [] => s
    | .closeSub :: rest =>
      watchRun fstore ty { s with errch := { s.errch with closed := true } } rest
    | .notif p :: rest => watchRun fstore ty (handleNotif fstore ty s p) rest
termination_by inputs.length

/-! ### Codec lemmas: decode is a left inverse of encode -/

theorem tyFieldNames_typeOfFields :
    ∀ fs : Fields, tyFieldNames (typeOfFields fs) = fieldNames fs
  | .fnil => rfl
  | .fcons k v rest => by
    simp [typeOfFields, tyFieldNames, fieldNames, tyFieldNames_typeOfFields rest]

theorem unmarshalFields_skip (k : String) (jv : Json) (jfs : JFields) :
    ∀ tys : FieldTys, k ∉ tyFieldNames tys →
      unmarshalFields (.jcons k jv jfs) tys = unmarshalFields jfs tys
  | .tnil, _ => rfl
  | .tcons k' ty rest, h => by
    have hk : ¬(k = k') := fun he => h (by simp [tyFieldNames, he])
    have h2 : k ∉ tyFieldNames rest := fun he => h (by simp [tyFieldNames, he])
    simp only [unmarshalFields, jlookup, if_neg hk,
      unmarshalFields_skip k jv jfs rest h2]

theorem namesNodup_cons {x : String} {xs : List String}
    (h : namesNodup (x :: xs) = true) :
    x ∉ xs ∧ namesNodup xs = true := by
  simpa [namesNodup, Bool.and_eq_true, Bool.not_eq_true'] using h

mutual

theorem unmarshal_marshal :
    ∀ v : GoVal, wfVal v = true → ∀ j, marshal v = Except.ok j →
      unmarshal j (typeOf v) = Except.ok v
  | .vstr s, _, j, hm => by
    simp only [marshal, Except.ok.injEq] at hm
    subst hm; rfl
  | .vint n, _, j, hm => by
    simp only [marshal, Except.ok.injEq] at hm
    subst hm; rfl
  | .vchan, _, j, hm => by simp [marshal] at hm
  | .vstruct n idx fs, hwf, j, hm => by
    have hwf' : namesNodup (fieldNames fs) = true ∧ wfFields fs = true := by
      simpa [wfVal, Bool.and_eq_true] using hwf
    revert hm
    cases hmf : marshalFields fs with
    | error e => simp [marshal, hmf]
    | ok jfs =>
      intro hm
      simp only [marshal, hmf, Except.ok.injEq] at hm
      subst hm
      have hrec := unmarshalFields_marshalFields fs hwf'.2 hwf'.1 jfs hmf
      simp [unmarshal, typeOf, hrec]

theorem unmarshalFields_marshalFields :
    ∀ fs : Fields, wfFields fs = true → namesNodup (fieldNames fs) = true →
      ∀ jfs, marshalFields fs = Except.ok jfs →
        unmarshalFields jfs (typeOfFields fs) = Except.ok fs
  | .fnil, _, _, jfs, hm => by
    simp only [marshalFields, Except.ok.injEq] at hm
    subst hm; rfl
  | .fcons k v rest, hwf, hnd, jfs, hm => by
    have hwf' : wfVal v = true ∧ wfFields rest = true := by
      simpa [wfFields, Bool.and_eq_true] using hwf
    have hnd' := namesNodup_cons (by simpa [fieldNames] using hnd)
    revert hm
    cases hmv : marshal v with
    | error e => simp [marshalFields, hmv]
    | ok jv =>
      cases hmr : marshalFields rest with
      | error e => simp [marshalFields, hmv, hmr]
      | ok jrest =>
        intro hm
        simp only [marshalFields, hmv, hmr, Except.ok.injEq] at hm
        subst hm
        have hv := unmarshal_marshal v hwf'.1 jv hmv
        have hr := unmarshalFields_marshalFields rest hwf'.2 hnd'.2 jrest hmr
        have hskip : unmarshalFields (.jcons k jv jrest) (typeOfFields rest) =
            unmarshalFields jrest (typeOfFields rest) :=
          unmarshalFields_skip k jv jrest (typeOfFields rest)
            (by rw [tyFieldNames_typeOfFields]; exact hnd'.1)
        simp [unmarshalFields, typeOfFields, jlookup, hv, hskip, hr]

end

mutual

theorem zeroVal_typeOf : ∀ ty : GoTy, typeOf (zeroVal ty) = ty
  | .tstr => rfl
  | .tint => rfl
  | .tchan => rfl
  | .tstruct n idx ftys => by
    simp [zeroVal, typeOf, zeroFields_typeOf ftys]

theorem zeroFields_typeOf : ∀ tys : FieldTys, typeOfFields (zeroFields tys) = tys
  | .tnil => rfl
  | .tcons k ty rest => by
    simp [zeroFields, typeOfFields, zeroVal_typeOf ty, zeroFields_typeOf rest]

end

mutual

theorem unmarshal_typeOf :
    ∀ (j : Json) (ty : GoTy) (v : GoVal), unmarshal j ty = Except.ok v →
      typeOf v = ty
  | .jstr s, .tstr, v, h => by
    simp only [unmarshal, Except.ok.injEq] at h
    subst h; rfl
  | .jnum n, .tint, v, h => by
    simp only [unmarshal, Except.ok.injEq] at h
    subst h; rfl
  | .jobj jfs, .tstruct n idx ftys, v, h => by
    revert h
    cases hu : unmarshalFields jfs ftys with
    | error e => simp [unmarshal, hu]
    | ok fs =>
      intro h
      simp only [unmarshal, hu, Except.ok.injEq] at h
      subst h
      simp [typeOf, unmarshalFields_typeOf jfs ftys fs hu]
  | .jstr _, .tint, v, h => by simp [unmarshal] at h
  | .jstr _, .tchan, v, h => by simp [unmarshal] at h
  | .jstr _, .tstruct _ _ _, v, h => by simp [unmarshal] at h
  | .jnum _, .tstr, v, h => by simp [unmarshal] at h
  | .jnum _, .tchan, v, h => by simp [unmarshal] at h
  | .jnum _, .tstruct _ _ _, v, h => by simp [unmarshal] at h
  | .jobj _, .tstr, v, h => by simp [unmarshal] at h
  | .jobj _, .tint, v, h => by simp [unmarshal] at h
  | .jobj _, .tchan, v, h => by simp [unmarshal] at h

theorem unmarshalFields_typeOf :
    ∀ (jfs : JFields) (tys : FieldTys) (fs : Fields),
      unmarshalFields jfs tys = Except.ok fs → typeOfFields fs = tys
  | jfs, .tnil, fs, h => by
    simp only [unmarshalFields, Except.ok.injEq] at h
    subst h; rfl
  | jfs, .tcons k ty rest, fs, h => by
    revert h
    cases hl : jlookup k jfs with
    | none =>
      cases hr : unmarshalFields jfs rest with
      | error e => simp [unmarshalFields, hl, hr]
      | ok fs' =>
        intro h
        simp only [unmarshalFields, hl, hr, Except.ok.injEq] at h
        subst h
        simp [typeOfFields, zeroVal_typeOf ty,
          unmarshalFields_typeOf jfs rest fs' hr]
    | some j =>
      cases hv : unmarshal j ty with
      | error e => simp [unmarshalFields, hl, hv]
      | ok v =>
        cases hr : unmarshalFields jfs rest with
        | error e => simp [unmarshalFields, hl, hv, hr]
        | ok fs' =>
          intro h
          simp only [unmarshalFields, hl, hv, hr, Except.ok.injEq] at h
          subst h
          simp [typeOfFields, unmarshal_typeOf j ty v hv,
            unmarshalFields_typeOf jfs rest fs' hr]

end

/-! ### Path lemmas -/

theorem takeWhile_append_stop {α} (q : α → Bool) :
    ∀ (l : List α) (x : α) (m : List α), (∀ a ∈ l, q a = true) → q x = false →
      List.takeWhile q (l ++ x :: m) = l
  | [], x, m, _, hx => by simp [List.takeWhile_cons, hx]
  | a :: l, x, m, h, hx => by
    simp [List.takeWhile_cons, h a (by simp),
      takeWhile_append_stop q l x m (fun b hb => h b (by simp [hb])) hx]

theorem baseList_append (pcs idcs : List Char) (h1 : idcs ≠ [])
    (h2 : '/' ∉ idcs) : baseList (pcs ++ '/' :: idcs) = idcs := by
  obtain ⟨c, cs, hc⟩ : ∃ c cs, idcs.reverse = c :: cs := by
    rcases he : idcs.reverse with _ | ⟨c, cs⟩
    · exact absurd (by simpa using congrArg List.reverse he) h1
    · exact ⟨c, cs, rfl⟩
  have hcmem : c ∈ idcs := by
    have : c ∈ idcs.reverse := by simp [hc]
    simpa using this
  have hcne : (c = '/') = False := by
    simp only [eq_iff_iff, iff_false]
    exact fun he => h2 (he ▸ hcmem)
  have hall : ∀ a ∈ idcs.reverse, (decide ¬(a = '/')) = true := by
    intro a ha
    have : a ∈ idcs := by simpa using ha
    simp only [decide_eq_true_eq]
    exact fun he => h2 (he ▸ this)
  have hrev : (pcs ++ '/' :: idcs).reverse = idcs.reverse ++ '/' :: pcs.reverse := by
    simp
  unfold baseList
  rw [hrev]
  have hdrop : List.dropWhile (fun x => decide (x = '/'))
      (idcs.reverse ++ '/' :: pcs.reverse) = idcs.reverse ++ '/' :: pcs.reverse := by
    rw [hc]
    simp only [List.cons_append, List.dropWhile_cons, hcne]
    simp
  rw [hdrop, takeWhile_append_stop _ idcs.reverse '/' pcs.reverse hall (by simp),
    List.reverse_reverse]

theorem filepathBase_append (p id : String) (h1 : id.data ≠ [])
    (h2 : '/' ∉ id.data) : filepathBase (p ++ "/" ++ id) = id := by
  have hdata : (p ++ "/" ++ id).data = p.data ++ '/' :: id.data := by
    simp [String.data_append]
  have hne : (p ++ "/" ++ id).toList ≠ [] := by
    show (p ++ "/" ++ id).data ≠ []
    rw [hdata]; simp
  have hbase : baseList (p ++ "/" ++ id).toList = id.data := by
    show baseList (p ++ "/" ++ id).data = id.data
    rw [hdata]; exact baseList_append p.data id.data h1 h2
  unfold filepathBase
  rw [if_neg hne, hbase, if_neg h1]

/-! ### Store inversion lemmas -/

theorem newStream_ok_inv (dir : String) (ev : GoVal) (sys : SysFS) (s : Stream)
    (b : Bool) (h : NewStream dir (some ev) sys = .ok (s, b)) :
    s = ⟨filepathClean dir ++ "/" ++ tyName (typeOf ev), typeOf ev⟩ := by
  simp only [NewStream] at h
  rcases hstat : sys.stat (filepathClean dir ++ "/" ++ tyName (typeOf ev)) with
    _ | _ | _ | m
  · rw [hstat] at h
    simp only [Except.ok.injEq, Prod.mk.injEq] at h
    exact h.1.symm
  · rw [hstat] at h
    simp at h
  · rw [hstat] at h
    rcases hmk : sys.mkdirErr (filepathClean dir ++ "/" ++ tyName (typeOf ev)) with
      _ | m
    · rw [hmk] at h
      simp only [Except.ok.injEq, Prod.mk.injEq] at h
      exact h.1.symm
    · rw [hmk] at h
      simp at h
  · rw [hstat] at h
    simp at h

theorem decodeEvent_type (fstore : FStore) (path : String) (ty : GoTy)
    (ev : Event) (h : DecodeEvent fstore path ty = .ok ev) :
    typeOf ev.Data = ty := by
  revert h
  unfold DecodeEvent
  cases List.lookup path fstore with
  | none => simp
  | some b =>
    cases hu : unmarshal b ty with
    | error m => simp [hu]
    | ok v =>
      intro h
      simp only [hu, Except.ok.injEq] at h
      subst h
      exact unmarshal_typeOf b ty v hu

theorem decodeAll_types (fstore : FStore) (dir : String) (ty : GoTy) :
    ∀ (ids : List String) (es : List Event),
      decodeAll fstore dir ty ids = .ok es → ∀ e ∈ es, typeOf e.Data = ty
  | [], es, h => by
    simp only [decodeAll, Except.ok.injEq] at h
    subst h; simp
  | id :: rest, es, h => by
    revert h
    cases hd : DecodeEvent fstore (dir ++ "/" ++ id) ty with
    | error e => simp [decodeAll, hd]
    | ok ev =>
      cases hr : decodeAll fstore dir ty rest with
      | error e => simp [decodeAll, hd, hr]
      | ok es' =>
        intro h
        simp only [decodeAll, hd, hr, Except.ok.injEq] at h
        subst h
        intro e he
        rcases List.mem_cons.mp he with he | he
        · subst he; exact decodeEvent_type fstore (dir ++ "/" ++ id) ty e hd
        · exact decodeAll_types fstore dir ty rest es' hr e he

/-! ### Sorting lemmas -/

theorem sortE_of_all_bad (pe : GoTy) (le : Event → Event → Except GoTy Bool) :
    ∀ l : List Event, (∀ a ∈ l, ∀ b ∈ l, le a b = Except.error pe) →
      sortE le l = if l.length ≤ 1 then .ok l else .error pe
  | [], _ => by simp [sortE]
  | [x], _ => by simp [sortE, insertE]
  | x :: y :: rest, h => by
    have hmem : ∀ a ∈ y :: rest, a ∈ x :: y :: rest :=
      fun a ha => List.mem_cons_of_mem x ha
    have hrec := sortE_of_all_bad pe le (y :: rest)
      (fun a ha b hb => h a (hmem a ha) b (hmem b hb))
    cases rest with
    | nil =>
      have hxy : le x y = .error pe := h x (by simp) y (by simp)
      simp [sortE, insertE, hxy]
    | cons z rest' =>
      have hlen' : ¬((y :: z :: rest').length ≤ 1) := by simp
      rw [if_neg hlen'] at hrec
      have hlen : ¬((x :: y :: z :: rest').length ≤ 1) := by simp
      rw [if_neg hlen]
      simp only [sortE] at hrec ⊢
      rw [hrec]

/-! ### Watch-run characterization -/

/-- The failure, if any, that processing one notification produces
(read failure or unmarshal failure). -/
def notifErr (fstore : FStore) (ty : GoTy) (path : String) : Option StoreErr :=
  match List.lookup path fstore with
  | none => some (.readFail path)
  | some b =>
    match unmarshal b ty with
    | .error m => some (.unmarshalErr path m)
    | .ok _ => none

/-- The first terminator of an input trace: `some none` when the consumer's
Close comes before any failing notification, `some (some e)` when a
notification fails first with `e`, `none` when the trace has no terminator. -/
def firstTerm (fstore : FStore) (ty : GoTy) : List WatchInput → Option (Option StoreErr)
  | [] => none
  | .closeSub :: _ => some none
  | .notif p :: rest =>
    match notifErr fstore ty p with
    | some e => some (some e)
    | none => firstTerm fstore ty rest

/-- The events successfully decoded strictly before the first terminator. -/
def goodEvents (fstore : FStore) (ty : GoTy) : List WatchInput → List Event
  | [] => []
  | .closeSub :: _ => []
  | .notif p :: rest =>
    match List.lookup p fstore with
    | none => []
    | some b =>
      match unmarshal b ty with
      | .error _ => []
      | .ok v => ⟨filepathBase p, v⟩ :: goodEvents fstore ty rest

/-- Full characterization of the watch goroutine run from a clean state: the
queue collects the events decoded before the first terminator; if there is a
terminator the run is terminal, `done` was closed exactly once, the terminal
error is the terminator's error (`none` for Close), and `errch` ends closed
exactly on the Close path. -/
theorem watchRun_characterize (fstore : FStore) (ty : GoTy) :
    ∀ (inputs : List WatchInput) (q : List Event),
      watchRun fstore ty ⟨q, ⟨none, false⟩, none, false, 0⟩ inputs =
        match firstTerm fstore ty inputs with
        | none => ⟨q ++ goodEvents fstore ty inputs, ⟨none, false⟩, none, false, 0⟩
        | some eo => ⟨q ++ goodEvents fstore ty inputs, ⟨none, eo.isNone⟩, eo, true, 1⟩
  | [], q => by
    rw [watchRun.eq_def]
    simp [chanReadable, firstTerm, goodEvents]
  | .closeSub :: rest, q => by
    rw [watchRun.eq_def]
    show watchRun fstore ty ⟨q, ⟨none, true⟩, none, false, 0⟩ rest = _
    rw [watchRun.eq_def]
    simp [chanReadable, chanRecv, firstTerm, goodEvents]
  | .notif p :: rest, q => by
    rw [watchRun.eq_def]
    show watchRun fstore ty
      (handleNotif fstore ty ⟨q, ⟨none, false⟩, none, false, 0⟩ p) rest = _
    cases hl : List.lookup p fstore with
    | none =>
      rw [watchRun.eq_def]
      simp [handleNotif, hl, chanReadable, chanRecv, firstTerm, notifErr,
        goodEvents]
    | some b =>
      cases hu : unmarshal b ty with
      | error m =>
        rw [watchRun.eq_def]
        simp [handleNotif, hl, hu, chanReadable, chanRecv, firstTerm, notifErr,
          goodEvents]
      | ok v =>
        have hrec := watchRun_characterize fstore ty rest (q ++ [⟨filepathBase p, v⟩])
        simp only [handleNotif, hl, hu]
        rw [hrec]
        simp only [firstTerm, notifErr, hl, hu, goodEvents]
        cases firstTerm fstore ty rest with
        | none => simp
        | some eo => simp

/-! ### Concrete fixtures (the test-suite's `TestEvent` type) -/

/-- The value `TestEvent\x7bText: "foobar"\x7d` used throughout the repository's
tests; its type does not implement `IndexedEvent`. -/
def testEvent : GoVal := .vstruct "TestEvent" false (.fcons "Text" (.vstr "foobar") .fnil)

/-- The `TestEvent` type descriptor. -/
def testTy : GoTy := typeOf testEvent

/-- The resolved stream for `TestEvent` under base directory `/base`. -/
def testStream : Stream := ⟨"/base/TestEvent", testTy⟩

/-- A benign OS oracle: every stream directory already exists, creation and
writes succeed. -/
def okSys : SysFS := ⟨fun _ => .statDir, fun _ => none, fun _ => none⟩

/-- A notify oracle on which every watch registration fails. -/
def failNotify : NotifySys := ⟨fun _ => some "inotify failure"⟩

/-- A notify oracle on which every watch registration succeeds. -/
def okNotify : NotifySys := ⟨fun _ => none⟩

/-- The serialized body of `testEvent`. -/
def testBody : Json := .jobj (.jcons "Text" (.jstr "foobar") .jnil)

/-- A store holding exactly one `TestEvent` file. -/
def oneFileStore : FStore := [("/base/TestEvent/one", testBody)]

/-! ### Claims -/

/-- C1: for every record `r` whose runtime type equals the stream's event
type, if `publish(stream, r)` succeeds returning identity `id`, then
`fetch(stream, id)` succeeds and its Event has `ID = id` and `Data` equal to
`r` — encode followed by decode of the written file is the identity on `r`.
(The identity drawn from the generator is slash-free and nonempty, as every
UUID string is; `r` is well-formed, i.e. its struct levels have distinct field
names, as every Go struct does.) -/
theorem publish_fetch_roundtrip (s : Stream) (sys : SysFS) (fstore : FStore)
    (r : GoVal) (gen : List String) (id : String) (fstore' : FStore)
    (gen' : List String)
    (hty : typeOf r = s.eventType) (hwf : wfVal r = true)
    (hid1 : id.data ≠ []) (hid2 : '/' ∉ id.data)
    (hpub : Publish s sys fstore r gen = (.ok id, fstore', gen')) :
    FetchS s fstore' id = .ok ⟨id, r⟩ := by
  cases gen with
  | nil => simp [Publish, Prod.ext_iff] at hpub
  | cons id0 rest =>
    simp only [Publish] at hpub
    rcases hw : WriteEvent s sys fstore id0 r with ⟨res, f2⟩
    rw [hw] at hpub
    cases res with
    | error e => simp [Prod.ext_iff] at hpub
    | ok u =>
      obtain ⟨hid0, hf2, -⟩ : id0 = id ∧ f2 = fstore' ∧ rest = gen' := by
        simpa [Prod.ext_iff] using hpub
      subst hid0 hf2
      simp only [WriteEvent, hty, ne_eq, not_true_eq_false, if_false] at hw
      revert hw
      cases hm : marshal r with
      | error m => simp
      | ok data =>
        cases hex : (List.lookup (s.dir ++ "/" ++ id0) fstore).isSome with
        | true => simp [hex]
        | false =>
          cases hwe : sys.writeErr (s.dir ++ "/" ++ id0) with
          | some m => simp [hex, hwe]
          | none =>
            intro hw
            have hf : ((s.dir ++ "/" ++ id0, data) :: fstore : FStore) = f2 := by
              simpa [hex, hwe, Prod.ext_iff] using hw
            subst hf
            simp only [FetchS, DecodeEvent]
            rw [show List.lookup (s.dir ++ "/" ++ id0)
                (((s.dir ++ "/" ++ id0, data) :: fstore : FStore)) = some data by
              simp [List.lookup_cons]]
            rw [← hty]
            show (match unmarshal data (typeOf r) with
              | Except.error m =>
                Except.error (StoreErr.unmarshalErr (s.dir ++ "/" ++ id0) m)
              | Except.ok v =>
                Except.ok (⟨filepathBase (s.dir ++ "/" ++ id0), v⟩ : Event)) =
              Except.ok (⟨id0, r⟩ : Event)
            rw [unmarshal_marshal r hwf data hm]
            simp [filepathBase_append s.dir id0 hid1 hid2]

/-- C1 witness: publishing `testEvent` with identity `id1` into an empty
store and fetching it back returns the event unchanged. -/
theorem publish_fetch_roundtrip_witness :
    FetchS testStream [("/base/TestEvent/id1", testBody)] "id1" =
      .ok ⟨"id1", testEvent⟩ :=
  publish_fetch_roundtrip testStream okSys [] testEvent ["id1"] "id1"
    [("/base/TestEvent/id1", testBody)] [] rfl (by decide) (by decide)
    (by decide) rfl

/-- C2: if a file named `id` already exists in the stream directory when
`WriteEvent` reaches its existence check (i.e. the type check and the encode
have passed), the call fails with the distinguished `IDCollisionError` and the
store is returned unchanged — no write occurs for that identity. -/
theorem writeEvent_collision (s : Stream) (sys : SysFS) (fstore : FStore)
    (id : String) (event : GoVal)
    (hty : typeOf event = s.eventType)
    (hm : ∃ d, marshal event = Except.ok d)
    (hex : (List.lookup (s.dir ++ "/" ++ id) fstore).isSome = true) :
    WriteEvent s sys fstore id event = (.error (.idCollision id), fstore) := by
  obtain ⟨d, hm⟩ := hm
  simp [WriteEvent, hty, hm, hex]

/-- C2 witness: re-publishing under an identity that already names a file
yields `IDCollisionError` and leaves the store untouched. -/
theorem writeEvent_collision_witness :
    WriteEvent testStream okSys oneFileStore "one" testEvent =
      (.error (.idCollision "one"), oneFileStore) :=
  writeEvent_collision testStream okSys oneFileStore "one" testEvent rfl
    ⟨testBody, rfl⟩ (by decide)

/-- C3 counterexample: the claim says the identity is generated only after a
successful encode, so that on a type mismatch no identity is generated; but
`Publish` draws the identity from the generator first (`uuid.NewRandom` is the
first statement), so publishing a mismatched record consumes `id1` — the
generator is left at `["id2"]`, not untouched at `["id1", "id2"]`. -/
theorem publish_id_first_cex :
    Publish testStream okSys [] (.vstr "oops") ["id1", "id2"] =
      (.error (.typeMismatch .tstr testTy), [], ["id2"]) ∧
    (["id2"] : List String) ≠ ["id1", "id2"] := by
  constructor
  · rfl
  · decide

/-- C3 amended: `Publish` draws the identity first, then `WriteEvent` rejects
a type mismatch before encoding and reports an encode failure before any
existence check or write; on either failure nothing is written and the error
is returned, but exactly one identity has been consumed from the generator. -/
theorem publish_order_amended (s : Stream) (sys : SysFS) (fstore : FStore)
    (ev : GoVal) (id : String) (rest : List String) :
    (typeOf ev ≠ s.eventType →
      Publish s sys fstore ev (id :: rest) =
        (.error (.typeMismatch (typeOf ev) s.eventType), fstore, rest)) ∧
    (∀ m, typeOf ev = s.eventType → marshal ev = .error m →
      Publish s sys fstore ev (id :: rest) =
        (.error (.marshalErr m), fstore, rest)) := by
  constructor
  · intro h
    simp [Publish, WriteEvent, h]
  · intro m h hm
    simp [Publish, WriteEvent, h, hm]

/-- C3 amended witness: a channel-typed record (unencodable would also do) of
the wrong type consumes `a` from the generator and writes nothing. -/
theorem publish_order_amended_witness :
    Publish testStream okSys [] .vchan ["a", "b"] =
      (.error (.typeMismatch .tchan testTy), [], ["b"]) :=
  (publish_order_amended testStream okSys [] .vchan "a" ["b"]).1 (by decide)

/-- C8 counterexample: the nil-event configuration error's message is
`event cannot be nil` (`errors.New("event cannot be nil")`), not the claimed
`event type cannot be nil`. -/
theorem newStream_nil_msg_cex :
    NewStream "/base" none okSys = .error .nilEvent ∧
    errMsg .nilEvent = "event cannot be nil" ∧
    errMsg .nilEvent ≠ "event type cannot be nil" := by
  refine ⟨rfl, rfl, ?_⟩
  decide

/-- C8 amended: stream construction behaves as claimed but the nil-event
message is `event cannot be nil` (and the stat-failure message says `dir`, not
`directory`): a nil sample is a configuration error; otherwise the directory
is `clean(base) + "/" + typeName`; an existing non-directory is rejected, a
missing directory is created (creation failure reported), and any other stat
failure is reported. -/
theorem newStream_resolution_amended (dir : String) (sys : SysFS) (ev : GoVal) :
    (NewStream dir none sys = .error .nilEvent ∧
      errMsg .nilEvent = "event cannot be nil") ∧
    (let d := filepathClean dir ++ "/" ++ tyName (typeOf ev)
     (sys.stat d = .statDir →
       NewStream dir (some ev) sys = .ok (⟨d, typeOf ev⟩, false)) ∧
     (sys.stat d = .statFile →
       NewStream dir (some ev) sys = .error (.notDir d) ∧
       errMsg (.notDir d) = d ++ " exists and is not a directory") ∧
     (sys.stat d = .statNoEnt → sys.mkdirErr d = none →
       NewStream dir (some ev) sys = .ok (⟨d, typeOf ev⟩, true)) ∧
     (∀ m, sys.stat d = .statNoEnt → sys.mkdirErr d = some m →
       NewStream dir (some ev) sys = .error (.mkdirFail d m)) ∧
     (∀ m, sys.stat d = .statErr m →
       NewStream dir (some ev) sys = .error (.statFail d m) ∧
       errMsg (.statFail d m) = "could not stat dir " ++ d ++ ": " ++ m)) := by
  refine ⟨⟨rfl, rfl⟩, ?_, ?_, ?_, ?_, ?_⟩
  · intro h
    simp [NewStream, h]
  · intro h
    exact ⟨by simp [NewStream, h], rfl⟩
  · intro h hmk
    simp [NewStream, h, hmk]
  · intro m h hmk
    simp [NewStream, h, hmk]
  · intro m h
    exact ⟨by simp [NewStream, h], rfl⟩

/-- C8 amended witness: under the benign oracle the `TestEvent` stream
resolves to `/base/TestEvent` without creating it. -/
theorem newStream_resolution_amended_witness :
    NewStream "/base" (some testEvent) okSys =
      .ok (⟨"/base/TestEvent", testTy⟩, false) :=
  (newStream_resolution_amended "/base" okSys testEvent).2.1 rfl

/-- A store holding two `TestEvent` files. -/
def twoFileStore : FStore :=
  [("/base/TestEvent/one", testBody), ("/base/TestEvent/two", testBody)]

/-- C9 counterexample: `TestEvent` does not implement `IndexedEvent`, yet
`DumpSorted` over a single-event stream returns the event silently —
`sort.Sort` performs no comparison on fewer than two elements, so no panic
occurs. -/
theorem dumpSorted_singleton_cex :
    hasIdx testTy = false ∧
    DumpSorted okSys oneFileStore "/base" (some testEvent) (fun _ _ => false) =
      .ok [⟨"one", testEvent⟩] := by
  exact ⟨rfl, rfl⟩

/-- C9 amended: on a stream whose record type lacks the `IndexedEvent`
capability, `DumpSorted` and `DumpSortedReverse` panic exactly when the dump
holds at least two events (a comparison is then performed); with fewer than
two events no comparison happens and the events are returned silently. -/
theorem dumpSorted_needs_two (sys : SysFS) (fstore : FStore) (dir : String)
    (ev : GoVal) (lessImpl : GoVal → GoVal → Bool) (es : List Event)
    (hno : hasIdx (typeOf ev) = false)
    (hdump : Dump sys fstore dir (some ev) = .ok es)
    (h2 : 2 ≤ es.length) :
    DumpSorted sys fstore dir (some ev) lessImpl = .panicked (typeOf ev) ∧
    DumpSortedReverse sys fstore dir (some ev) lessImpl =
      .panicked (typeOf ev) := by
  have htypes : ∀ e ∈ es, typeOf e.Data = typeOf ev := by
    have hd := hdump
    revert hd
    unfold Dump
    cases hns : NewStream dir (some ev) sys with
    | error e => simp
    | ok sb =>
      intro hd
      obtain ⟨s, b⟩ := sb
      have hs := newStream_ok_inv dir ev sys s b hns
      subst hs
      intro e he
      have := decodeAll_types fstore _ _ _ es hd e he
      simpa using this
  have hbad : ∀ a ∈ es, ∀ b ∈ es,
      eventLess lessImpl a b = .error (typeOf ev) := by
    intro a ha b hb
    simp [eventLess, htypes a ha, hno]
  have hbadR : ∀ a ∈ es, ∀ b ∈ es,
      eventLessRev lessImpl a b = .error (typeOf ev) :=
    fun a ha b hb => hbad b hb a ha
  have hsort := sortE_of_all_bad (typeOf ev) (eventLess lessImpl) es hbad
  have hsortR := sortE_of_all_bad (typeOf ev) (eventLessRev lessImpl) es hbadR
  rw [if_neg (by omega)] at hsort hsortR
  constructor
  · simp [DumpSorted, hdump, hsort]
  · simp [DumpSortedReverse, hdump, hsortR]

/-- C9 amended witness: two `TestEvent` files make `DumpSorted` panic with the
non-`IndexedEvent` type. -/
theorem dumpSorted_needs_two_witness :
    DumpSorted okSys twoFileStore "/base" (some testEvent) (fun _ _ => false) =
      .panicked testTy :=
  (dumpSorted_needs_two okSys twoFileStore "/base" testEvent (fun _ _ => false)
    [⟨"one", testEvent⟩, ⟨"two", testEvent⟩] rfl rfl (by decide)).1

/-- C4: for every terminal run of the watch goroutine from a clean start, the
terminal error is nil exactly when the first terminator of the consumed trace
is the consumer's Close; and a read/decode failure on a notification makes the
run terminal with that failure as the terminal error, the completion signal
fired, and the queue holding only the events decoded before the failure — the
bad file is not skipped, the remaining trace is not processed. -/
theorem watch_err_iff_close (fstore : FStore) (ty : GoTy)
    (inputs : List WatchInput) :
    ((watchRun fstore ty initWatch inputs).done = true →
      ((watchRun fstore ty initWatch inputs).err = none ↔
        firstTerm fstore ty inputs = some none)) ∧
    (∀ e, firstTerm fstore ty inputs = some (some e) →
      (watchRun fstore ty initWatch inputs).done = true ∧
      (watchRun fstore ty initWatch inputs).err = some e ∧
      (watchRun fstore ty initWatch inputs).queue =
        goodEvents fstore ty inputs) := by
  have hc := watchRun_characterize fstore ty inputs []
  simp only [initWatch, initErrCh]
  rw [hc]
  cases hft : firstTerm fstore ty inputs with
  | none => simp
  | some eo =>
    cases eo with
    | none => simp
    | some e => simp

/-- C4 witness: a notification for a missing file terminates the run with the
read failure as the terminal error. -/
theorem watch_err_iff_close_witness :
    (watchRun [] testTy initWatch [.notif "x"]).err =
      some (.readFail "x") :=
  ((watch_err_iff_close [] testTy [.notif "x"]).2 (.readFail "x")
    (by decide)).2.1

/-- C7: the completion signal fires exactly once on every terminal run
(`doneCount = 1`, and 0 on a non-terminal run), whichever terminal path is
taken; and a Close before any event arrives makes the run terminal with a nil
terminal error, an empty queue, and nothing processed afterwards. -/
theorem watch_done_once (fstore : FStore) (ty : GoTy)
    (inputs rest : List WatchInput) :
    ((watchRun fstore ty initWatch inputs).doneCount ≤ 1) ∧
    ((watchRun fstore ty initWatch inputs).done = true →
      (watchRun fstore ty initWatch inputs).doneCount = 1) ∧
    ((watchRun fstore ty initWatch inputs).done = false →
      (watchRun fstore ty initWatch inputs).doneCount = 0) ∧
    (watchRun fstore ty initWatch (.closeSub :: rest) =
      ⟨[], ⟨none, true⟩, none, true, 1⟩) := by
  have hc := watchRun_characterize fstore ty inputs []
  have hc2 := watchRun_characterize fstore ty (.closeSub :: rest) []
  simp only [initWatch, initErrCh]
  rw [hc, hc2]
  simp only [firstTerm, goodEvents, List.nil_append]
  cases firstTerm fstore ty inputs with
  | none => simp
  | some eo => simp

/-- C7 witness: closing a fresh subscription fires completion once with a nil
error and an empty queue. -/
theorem watch_done_once_witness :
    (watchRun [] testTy initWatch [WatchInput.closeSub]).doneCount = 1 := by
  have h4 := (watch_done_once [] testTy [] []).2.2.2
  exact (watch_done_once [] testTy [WatchInput.closeSub] []).2.1 (by rw [h4])

/-- C5 counterexample: the claim says construction registers with the Change
Source and a registration failure surfaces from construction; but with a
notify facility on which every registration fails, `NewSubscriber` still
succeeds — the failure only surfaces later, from `Subscribe`. -/
theorem newSubscriber_no_watch_cex :
    NewSubscriber "/base" (some testEvent) okSys =
      .ok (⟨"/base/TestEvent", testTy, false⟩, false) ∧
    Subscribe failNotify ⟨"/base/TestEvent", testTy, false⟩ =
      .failed "error watching directory /base/TestEvent: inotify failure"
        ⟨"/base/TestEvent", testTy, false⟩ := ⟨rfl, rfl⟩

theorem newSubscriber_ok_inv (dir : String) (ev : GoVal) (sys : SysFS)
    (s : Subscriber) (b : Bool)
    (h : NewSubscriber dir (some ev) sys = .ok (s, b)) :
    s = ⟨filepathClean dir ++ "/" ++ tyName (typeOf ev), typeOf ev, false⟩ := by
  simp only [NewSubscriber] at h
  rcases hstat : sys.stat (filepathClean dir ++ "/" ++ tyName (typeOf ev)) with
    _ | _ | _ | m
  · rw [hstat] at h
    simp only [Except.ok.injEq, Prod.mk.injEq] at h
    exact h.1.symm
  · rw [hstat] at h
    simp at h
  · rw [hstat] at h
    rcases hmk : sys.mkdirErr (filepathClean dir ++ "/" ++ tyName (typeOf ev)) with
      _ | m
    · rw [hmk] at h
      simp only [Except.ok.injEq, Prod.mk.injEq] at h
      exact h.1.symm
    · rw [hmk] at h
      simp at h
  · rw [hstat] at h
    simp at h

/-- C5 amended: watch registration happens in `Subscribe`, not in
construction: a subscriber returned by `NewSubscriber` is never opened
(Watching), and a registration failure surfaces as an error returned from
`Subscribe`, which leaves the subscriber unopened. -/
theorem subscribe_registration_amended (dir : String) (ev : GoVal)
    (sys : SysFS) (nsys : NotifySys) (t : Subscriber) (b : Bool) (m : String) :
    (NewSubscriber dir (some ev) sys = .ok (t, b) → t.opened = false) ∧
    (∀ u : Subscriber, u.opened = false → nsys.watchErr u.dir = some m →
      Subscribe nsys u =
        .failed ("error watching directory " ++ u.dir ++ ": " ++ m) u) := by
  constructor
  · intro h
    rw [newSubscriber_ok_inv dir ev sys t b h]
  · intro u hop hw
    simp [Subscribe, hop, hw]

/-- C5 amended witness: a registration failure is returned from `Subscribe`
with the subscriber left unopened. -/
theorem subscribe_registration_amended_witness :
    Subscribe failNotify ⟨"/base/TestEvent", testTy, false⟩ =
      .failed "error watching directory /base/TestEvent: inotify failure"
        ⟨"/base/TestEvent", testTy, false⟩ :=
  (subscribe_registration_amended "/base" testEvent okSys failNotify
    ⟨"/base/TestEvent", testTy, false⟩ false "inotify failure").2
    ⟨"/base/TestEvent", testTy, false⟩ rfl rfl

/-- C10: `Subscribe` succeeds at most once: on an opened subscriber it
panics; a registration failure returns an error (never a panic) and leaves
the subscriber unopened, so the call may be retried; a success marks the
subscriber opened, after which any further `Subscribe` panics. -/
theorem subscribe_once (nsys : NotifySys) (s : Subscriber) :
    (s.opened = true → Subscribe nsys s =
      .panicked "calling subscribe on an already opened subscriber") ∧
    (∀ m, s.opened = false → nsys.watchErr s.dir = some m →
      Subscribe nsys s =
        .failed ("error watching directory " ++ s.dir ++ ": " ++ m) s ∧
      ∀ msg, Subscribe nsys s ≠ .panicked msg) ∧
    (s.opened = false → nsys.watchErr s.dir = none →
      Subscribe nsys s = .started { s with opened := true } ∧
      Subscribe nsys { s with opened := true } =
        .panicked "calling subscribe on an already opened subscriber") := by
  refine ⟨?_, ?_, ?_⟩
  · intro h
    simp [Subscribe, h]
  · intro m hop hw
    refine ⟨by simp [Subscribe, hop, hw], ?_⟩
    intro msg
    simp [Subscribe, hop, hw]
  · intro hop hw
    exact ⟨by simp [Subscribe, hop, hw], by simp [Subscribe]⟩

/-- C10 witness: subscribing on an already-opened subscriber panics. -/
theorem subscribe_once_witness :
    Subscribe okNotify ⟨"/base/TestEvent", testTy, true⟩ =
      .panicked "calling subscribe on an already opened subscriber" :=
  (subscribe_once okNotify ⟨"/base/TestEvent", testTy, true⟩).1 rfl

/-- C6 counterexample: `Close` is a bare `close(s.errch)`, so a second Close
panics (close of a closed channel) — both when called twice in a row and when
called again after the delivery task terminated via the Close path. -/
theorem close_twice_cex :
    (closeChan initErrCh).bind closeChan =
      .error "panic: close of closed channel" ∧
    closeChan (watchRun [] testTy initWatch [.closeSub]).errch =
      .error "panic: close of closed channel" := by
  constructor
  · rfl
  · have hc := watchRun_characterize [] testTy [.closeSub] []
    simp only [initWatch, initErrCh]
    rw [hc]
    rfl

/-- C6 amended: the first Close (the error channel not yet closed, which
includes a Close issued after the task terminated on the Errored path)
succeeds and is benign; but a Close once the channel is closed — e.g. a second
Close — panics with close of closed channel. -/
theorem close_amended (c : ErrCh) (fstore : FStore) (ty : GoTy)
    (inputs : List WatchInput) :
    (c.closed = false → closeChan c = .ok { c with closed := true }) ∧
    (c.closed = true → closeChan c = .error "panic: close of closed channel") ∧
    (∀ e, firstTerm fstore ty inputs = some (some e) →
      closeChan (watchRun fstore ty initWatch inputs).errch =
        .ok ⟨none, true⟩) := by
  refine ⟨?_, ?_, ?_⟩
  · intro h
    simp [closeChan, h]
  · intro h
    simp [closeChan, h]
  · intro e hft
    have hc := watchRun_characterize fstore ty inputs []
    simp only [initWatch, initErrCh]
    rw [hc, hft]
    simp [closeChan]

/-- C6 amended witness: the first Close on a fresh error channel succeeds. -/
theorem close_amended_witness :
    closeChan initErrCh = .ok ⟨none, true⟩ :=
  (close_amended initErrCh [] testTy []).1 rfl

end Fsps
